import Mathlib

/-!
Verification of the pySimiam Khepera3 supervisor core against its
natural-language specification.

The embedding follows the Python source:
* `supervisors/khepera3.py` — `K3Supervisor` with `estimate_pose`,
  `uni2diff`, `get_default_parameters`, `get_parameters`/`set_parameters`
  and `execute`;
* `gui/qt/paramwindow.py` — the parameter model (`FloatEntry`, `Group`)
  behind the supervisor parameter get/set interface.

Real-valued quantities (poses, velocities, wheel geometry) are embedded as
`ℝ`; encoder tick counters (Python ints) as `ℤ`; the GUI parameter values
(spinbox contents) as `ℚ` so the parameter model stays decidable.
-/

namespace PySimiam

/-- 2D pose `(x, y, theta)` as used by `Pose(x_new, y_new, theta_new)` in
`khepera3.py` (`pose.py` supplies the constructor; only the three fields
are relevant here). -/
structure Pose where
  x : ℝ
  y : ℝ
  theta : ℝ

/-- The `robot_info.wheels` record read by `K3Supervisor`: geometry constants
`radius`, `base_length`, `ticks_per_rev` and the current encoder counters
`left_ticks`, `right_ticks`. -/
structure Wheels where
  radius : ℝ
  base_length : ℝ
  ticks_per_rev : ℕ
  left_ticks : ℤ
  right_ticks : ℤ

/-- The part of `robot_info` the supervisor reads. -/
structure RobotInfo where
  wheels : Wheels

/-- The `goal` sub-struct of the default parameters
(`get_default_parameters`, khepera3.py lines 18-29). -/
structure GoalParam where
  x : ℝ
  y : ℝ

/-- The `velocity` sub-struct of the default parameters. -/
structure VelocityParam where
  v : ℝ

/-- The `gains` sub-struct of the default parameters. -/
structure GainsParam where
  kp : ℝ
  ki : ℝ
  kd : ℝ

/-- The supervisor parameter struct built by
`K3Supervisor.get_default_parameters`. -/
structure Params where
  goal : GoalParam
  velocity : VelocityParam
  gains : GainsParam

/-- `K3Supervisor.get_default_parameters` (khepera3.py lines 18-29). -/
noncomputable def get_default_parameters : Params :=
  { goal := { x := -5.0, y := 5.0 }
  , velocity := { v := 2.0 }
  , gains := { kp := 1.0, ki := 0.1, kd := 0.0 } }

/-- The mutable state a `K3Supervisor` instance carries across ticks: the
stored encoder registers `self.left_ticks` / `self.right_ticks`
(khepera3.py lines 15-16), the pose estimate `self.pose_est`, and the
supervisor parameters `self.ui_params`. -/
structure K3State where
  left_ticks : ℤ
  right_ticks : ℤ
  pose_est : Pose
  ui_params : Params

/-- `K3Supervisor.estimate_pose` (khepera3.py lines 67-99): computes the
tick deltas against the stored registers, advances the registers, and
returns the dead-reckoned pose.  The state after the mutations
`self.left_ticks += dtl; self.right_ticks += dtr` is returned alongside
the new pose. -/
noncomputable def estimate_pose (s : K3State) (robot : RobotInfo) : K3State × Pose :=
  let dtl : ℤ := robot.wheels.left_ticks - s.left_ticks
  let dtr : ℤ := robot.wheels.right_ticks - s.right_ticks
  let s' : K3State :=
    { s with left_ticks := s.left_ticks + dtl, right_ticks := s.right_ticks + dtr }
  let x := s.pose_est.x
  let y := s.pose_est.y
  let theta := s.pose_est.theta
  let R := robot.wheels.radius
  let L := robot.wheels.base_length
  let m_per_tick := (2 * Real.pi * R) / (robot.wheels.ticks_per_rev : ℝ)
  let dl := (dtl : ℝ) * m_per_tick
  let dr := (dtr : ℝ) * m_per_tick
  let theta_dt := (dr - dl) / L
  let theta_mid := theta + theta_dt / 2
  let dst := (dr + dl) / 2
  let x_dt := dst * Real.cos theta_mid
  let y_dt := dst * Real.sin theta_mid
  let theta_new := theta + theta_dt
  let x_new := x + x_dt
  let y_new := y + y_dt
  (s', ⟨x_new, y_new, theta_new⟩)

/-- `K3Supervisor.uni2diff` (khepera3.py lines 54-60): converts a unicycle
command `(v, w)` to wheel speeds `(vl, vr)`. -/
noncomputable def uni2diff (robot : RobotInfo) (uni : ℝ × ℝ) : ℝ × ℝ :=
  let v := uni.1
  let w := uni.2
  let vr := (robot.wheels.base_length * w + 2 * v) / 2 / robot.wheels.radius
  let vl := vr - robot.wheels.base_length * w / robot.wheels.radius
  (vl, vr)

/-- The odometry update exactly as the specification words it: given the
previous pose, the tick deltas and the geometry, form
`dl = dtl*(2*pi*R/ticks_per_revolution)`, `dr = dtr*(2*pi*R/ticks_per_revolution)`,
`dtheta = (dr - dl)/L`, `theta_mid = theta_prev + dtheta/2`,
`distance = (dr + dl)/2` and return
`(x_prev + distance*cos(theta_mid), y_prev + distance*sin(theta_mid),
theta_prev + dtheta)`.  Stated separately from `estimate_pose` so the code
can be compared against the specification formula. -/
noncomputable def spec_odometry (prev : Pose) (dtl dtr : ℤ) (R L : ℝ) (ticks_per_revolution : ℕ) : Pose :=
  let dl := (dtl : ℝ) * (2 * Real.pi * R / (ticks_per_revolution : ℝ))
  let dr := (dtr : ℝ) * (2 * Real.pi * R / (ticks_per_revolution : ℝ))
  let dtheta := (dr - dl) / L
  let theta_mid := prev.theta + dtheta / 2
  let distance := (dr + dl) / 2
  ⟨prev.x + distance * Real.cos theta_mid,
   prev.y + distance * Real.sin theta_mid,
   prev.theta + dtheta⟩

/-- Error taxonomy of the supervisor core (spec section 7). -/
inductive SupervisorError where
  | ConfigurationError
deriving DecidableEq

/-- Modelled from the spec: `Supervisor.__init__` lives in `supervisor.py`,
which is not under `src/`; it is called by `K3Supervisor.__init__`
(khepera3.py lines 9-16) before the tick registers are initialised.  Per the
spec (section 7), construction with wheel geometry `R ≤ 0` or `L ≤ 0` raises
`ConfigurationError`; otherwise the pose estimate starts at `robot_pose`,
the parameters at the defaults, and the tick registers at the current
encoder readings (khepera3.py lines 15-16). -/
noncomputable def K3Supervisor_init (robot_pose : Pose) (robot_info : RobotInfo) :
    Except SupervisorError K3State :=
  if robot_info.wheels.radius ≤ 0 ∨ robot_info.wheels.base_length ≤ 0 then
    .error .ConfigurationError
  else
    .ok { left_ticks := robot_info.wheels.left_ticks
        , right_ticks := robot_info.wheels.right_ticks
        , pose_est := robot_pose
        , ui_params := get_default_parameters }

/-- A controller capability: `compute(pose, dt, parameters) -> (v, w)`
(spec section 4.5). -/
def Controller : Type := Pose → ℝ → Params → ℝ × ℝ

/-- `K3Supervisor.execute` (khepera3.py lines 101-103) returns
`uni2diff(Supervisor.execute(robot_info, dt))`.  The base
`Supervisor.execute` is modelled from the spec (`supervisor.py` is not under
`src/`): per spec section 4.5 it runs the odometry update — which stores the
returned pose as the new estimate (spec section 4.3 step 8) — then runs the
active controller on the new estimate and current parameters.  No error is
raised during `execute`. -/
noncomputable def K3_execute (controller : Controller) (s : K3State)
    (robot_info : RobotInfo) (dt : ℝ) :
    Except SupervisorError (K3State × (ℝ × ℝ)) :=
  let sp := estimate_pose s robot_info
  let s2 : K3State := { sp.1 with pose_est := sp.2 }
  let vw := controller sp.2 dt s2.ui_params
  .ok (s2, uni2diff robot_info vw)

/-- Concrete supervisor state used by the witnesses: stored ticks (0, 0),
pose estimate at the origin, default parameters. -/
noncomputable def demoState : K3State :=
  { left_ticks := 0, right_ticks := 0
  , pose_est := ⟨0, 0, 0⟩
  , ui_params := get_default_parameters }

/-- Concrete robot record used by the witnesses: the spec's concrete
scenario geometry with encoder readings (50, 100). -/
noncomputable def demoRobot : RobotInfo :=
  { wheels := { radius := 1, base_length := 1, ticks_per_rev := 100
              , left_ticks := 50, right_ticks := 100 } }

/-- Concrete robot record whose encoder readings match `demoState`'s stored
ticks (zero tick deltas). -/
noncomputable def demoRobotStill : RobotInfo :=
  { wheels := { radius := 1, base_length := 1, ticks_per_rev := 100
              , left_ticks := 0, right_ticks := 0 } }

/-- A robot record with zero wheel radius, used to witness C6. -/
noncomputable def demoRobotBad : RobotInfo :=
  { wheels := { radius := 0, base_length := 1, ticks_per_rev := 100
              , left_ticks := 0, right_ticks := 0 } }

/-- A node of the GUI parameter model (paramwindow.py): either a float
leaf — a `FloatEntry` backed by a `QDoubleSpinBox` holding its `minimum`,
`maximum` and current `value` (lines 53-63, with the shared accessors of
`ValueEntry`, lines 33-48) — or a `Group` holding an ordered mapping of
named child nodes (lines 124-138).  The khepera3 parameter template
(`get_ui_description`, khepera3.py lines 31-43) uses exactly float leaves
and nested groups.  Spinbox contents are embedded as rationals. -/
inductive Entry where
  | float (min_value max_value value : ℚ)
  | group (leafs : List (String × Entry))

/-- A value passed to `set_value` or returned by `get_value`: a number for
a leaf, and an ordered list of `(key, value)` pairs for a group
(`Group.get_value`, paramwindow.py line 156). -/
inductive PValue where
  | num (v : ℚ)
  | pairs (items : List (String × PValue))

/-- The membership test `k in self.leafs` (paramwindow.py line 150) on the
ordered mapping of a group. -/
def containsKey (ls : List (String × Entry)) (k : String) : Bool :=
  ls.any (fun p => p.1 == k)

mutual

/-- `set_value` on a single node.  For a float leaf, `FloatEntry.set_value`
(paramwindow.py lines 47-48) calls `QDoubleSpinBox.setValue`, which clamps
the given number into `[minimum, maximum]` (Qt spinbox semantics); for a
group, `Group.set_value` (lines 148-153) iterates the `(key, value)` pairs
in order.  The result is the node after the — possibly partial — mutation,
together with the message of the exception raised, if any: the `KeyError`
text of line 153 for an unknown key, or a `TypeError` marker when the
value's shape does not match the node. -/
def setValue : Entry → PValue → Entry × Option String
  | .float mn mx _, .num v => (.float mn mx (max mn (min mx v)), none)
  | .float mn mx v0, .pairs _ => (.float mn mx v0, some "TypeError")
  | .group ls, .num _ => (.group ls, some "TypeError")
  | .group ls, .pairs items =>
      let r := setPairs ls items
      (.group r.1, r.2)
termination_by e v => (sizeOf v, 0, 0)

/-- The loop `for k, v in value` of `Group.set_value` (paramwindow.py lines
149-153) over the remaining update pairs: a raised exception aborts the
loop, keeping the mutations already applied. -/
def setPairs (ls : List (String × Entry)) :
    List (String × PValue) → List (String × Entry) × Option String
  | [] => (ls, none)
  | (k, v) :: rest =>
      if containsKey ls k then
        let r := setChild ls k v
        match r.2 with
        | some msg => (r.1, some msg)
        | none => setPairs r.1 rest
      else
        (ls, some ("Key \x27" ++ k ++ "\x27 not accepted by supervisor"))
termination_by items => (sizeOf items, 2, 0)

/-- `self.leafs[k].set_value(v)` (paramwindow.py line 151): update the
child stored under key `k` in the ordered mapping. -/
def setChild : List (String × Entry) → String → PValue →
    List (String × Entry) × Option String
  | [], _, _ => ([], none)
  | (k0, e) :: tl, k, v =>
      if k0 = k then
        let r := setValue e v
        ((k0, r.1) :: tl, r.2)
      else
        let r := setChild tl k v
        ((k0, e) :: r.1, r.2)
termination_by ls _ v => (sizeOf v, 1, sizeOf ls)

end

mutual

/-- `get_value`: a leaf reports the spinbox's current value
(`ValueEntry.get_value`, paramwindow.py lines 41-42), a group the ordered
`(key, value)` list of its children (`Group.get_value`, line 156). -/
def getValue : Entry → PValue
  | .float _ _ v => .num v
  | .group ls => .pairs (getPairs ls)
termination_by e => sizeOf e

/-- The list comprehension of `Group.get_value` (paramwindow.py line 156). -/
def getPairs : List (String × Entry) → List (String × PValue)
  | [] => []
  | (k, e) :: tl => (k, getValue e) :: getPairs tl
termination_by ls => sizeOf ls

end

/-- Distinctness of the keys of an ordered mapping (automatic for a Python
`OrderedDict`). -/
def keysUnique : List String → Bool
  | [] => true
  | k :: tl => !tl.contains k && keysUnique tl

mutual

/-- A parameter node is in a valid state when every float leaf's value lies
within its declared bounds and every group's child keys are distinct. -/
def entryWF : Entry → Bool
  | .float mn mx v => decide (mn ≤ v) && decide (v ≤ mx)
  | .group ls => keysUnique (ls.map Prod.fst) && leafsWF ls
termination_by e => sizeOf e

/-- `entryWF` over the children of a group. -/
def leafsWF : List (String × Entry) → Bool
  | [] => true
  | (_, e) :: tl => entryWF e && leafsWF tl
termination_by ls => sizeOf ls

end

/-- The parameter tree of the khepera3 default parameters, with the bounds
of a generic spinbox. -/
def demoTree : Entry :=
  .group
    [ ("goal", .group [("x", .float (-100) 100 (-5)), ("y", .float (-100) 100 5)])
    , ("velocity", .group [("v", .float 0 100 2)])
    , ("gains", .group
        [("kp", .float 0 100 1), ("ki", .float 0 100 (1/10)), ("kd", .float 0 100 0)]) ]

/-- A flat two-leaf group used for the bulk-set counterexamples. -/
def demoGains : List (String × Entry) :=
  [("kp", .float 0 10 1), ("ki", .float 0 10 2)]

/-- An update sequence whose first entry is valid and whose second entry
names an unknown key. -/
def demoUpdates : List (String × PValue) :=
  [("kp", .num 5), ("missing", .num 1)]

/-- C1: for every previous pose and tick deltas, with geometry `R > 0`,
`L > 0`, `ticks_per_revolution > 0`, `estimate_pose` returns exactly the
specification's odometry formula: `dl = dtl*(2*pi*R/ticks_per_revolution)`,
`dr = dtr*(2*pi*R/ticks_per_revolution)`, `dtheta = (dr - dl)/L`,
`theta_mid = theta_prev + dtheta/2`, `distance = (dr + dl)/2`, and pose
`(x_prev + distance*cos(theta_mid), y_prev + distance*sin(theta_mid),
theta_prev + dtheta)` — the midpoint heading, not the start or end heading,
drives the x/y increment. -/
theorem C1_estimate_pose_matches_spec (s : K3State) (robot : RobotInfo)
    (hR : 0 < robot.wheels.radius) (hL : 0 < robot.wheels.base_length)
    (hN : 0 < robot.wheels.ticks_per_rev) :
    (estimate_pose s robot).2 =
      spec_odometry s.pose_est
        (robot.wheels.left_ticks - s.left_ticks)
        (robot.wheels.right_ticks - s.right_ticks)
        robot.wheels.radius robot.wheels.base_length robot.wheels.ticks_per_rev :=
  rfl

/-- Witness for C1 at the concrete state `demoState` and robot `demoRobot`. -/
theorem C1_witness :
    (0 < demoRobot.wheels.radius ∧ 0 < demoRobot.wheels.base_length ∧
      0 < demoRobot.wheels.ticks_per_rev) ∧
    (estimate_pose demoState demoRobot).2 =
      spec_odometry demoState.pose_est
        (demoRobot.wheels.left_ticks - demoState.left_ticks)
        (demoRobot.wheels.right_ticks - demoState.right_ticks)
        demoRobot.wheels.radius demoRobot.wheels.base_length
        demoRobot.wheels.ticks_per_rev :=
  ⟨⟨by norm_num [demoRobot], by norm_num [demoRobot], by norm_num [demoRobot]⟩,
   C1_estimate_pose_matches_spec demoState demoRobot
     (by norm_num [demoRobot]) (by norm_num [demoRobot]) (by norm_num [demoRobot])⟩

/-- C2: for every unicycle command `(v, w)` and geometry with `R > 0`,
`uni2diff` returns exactly `vr = (L*w + 2*v)/(2*R)` and
`vl = vr - L*w/R`. -/
theorem C2_uni2diff_formula (robot : RobotInfo) (v w : ℝ)
    (hR : 0 < robot.wheels.radius) :
    (uni2diff robot (v, w)).2 =
      (robot.wheels.base_length * w + 2 * v) / (2 * robot.wheels.radius) ∧
    (uni2diff robot (v, w)).1 =
      (uni2diff robot (v, w)).2 -
        robot.wheels.base_length * w / robot.wheels.radius := by
  constructor
  · show (robot.wheels.base_length * w + 2 * v) / 2 / robot.wheels.radius = _
    rw [div_div]
  · rfl

/-- Witness for C2 at `demoRobot` with the command `(v, w) = (3, 2)`. -/
theorem C2_witness :
    0 < demoRobot.wheels.radius ∧
    ((uni2diff demoRobot (3, 2)).2 =
      (demoRobot.wheels.base_length * 2 + 2 * 3) / (2 * demoRobot.wheels.radius) ∧
    (uni2diff demoRobot (3, 2)).1 =
      (uni2diff demoRobot (3, 2)).2 -
        demoRobot.wheels.base_length * 2 / demoRobot.wheels.radius) :=
  ⟨by norm_num [demoRobot],
   C2_uni2diff_formula demoRobot 3 2 (by norm_num [demoRobot])⟩

/-- C5: if the new encoder readings equal the stored previous tick counts
(`dtl = dtr = 0`), the odometry update returns a pose equal to the previous
pose — a zero-motion update with no division fault. -/
theorem C5_zero_delta_is_identity (s : K3State) (robot : RobotInfo)
    (hl : robot.wheels.left_ticks = s.left_ticks)
    (hr : robot.wheels.right_ticks = s.right_ticks) :
    (estimate_pose s robot).2 = s.pose_est := by
  simp only [estimate_pose, hl, hr, sub_self, Int.cast_zero, zero_mul, sub_zero,
    add_zero, zero_div, zero_add, mul_zero]

/-- Witness for C5: zero tick deltas at `demoState` and `demoRobotStill`. -/
theorem C5_witness :
    (demoRobotStill.wheels.left_ticks = demoState.left_ticks ∧
      demoRobotStill.wheels.right_ticks = demoState.right_ticks) ∧
    (estimate_pose demoState demoRobotStill).2 = demoState.pose_est :=
  ⟨⟨by norm_num [demoRobotStill, demoState], by norm_num [demoRobotStill, demoState]⟩,
   C5_zero_delta_is_identity demoState demoRobotStill
     (by norm_num [demoRobotStill, demoState])
     (by norm_num [demoRobotStill, demoState])⟩

/-- C6: construction with wheel geometry `R ≤ 0` or `L ≤ 0` fails with
`ConfigurationError`, and a later `execute` call never raises it (every
`execute` run returns a normal result). -/
theorem C6_configuration_error_at_construction (robot_pose : Pose)
    (robot_info : RobotInfo)
    (h : robot_info.wheels.radius ≤ 0 ∨ robot_info.wheels.base_length ≤ 0) :
    K3Supervisor_init robot_pose robot_info = .error .ConfigurationError ∧
    ∀ (controller : Controller) (s : K3State) (dt : ℝ),
      ∃ out, K3_execute controller s robot_info dt = .ok out := by
  constructor
  · unfold K3Supervisor_init
    rw [if_pos h]
  · intro controller s dt
    exact ⟨_, rfl⟩

/-- Witness for C6 at a robot with zero wheel radius. -/
theorem C6_witness :
    (demoRobotBad.wheels.radius ≤ 0 ∨ demoRobotBad.wheels.base_length ≤ 0) ∧
    (K3Supervisor_init ⟨0, 0, 0⟩ demoRobotBad = .error .ConfigurationError ∧
    ∀ (controller : Controller) (s : K3State) (dt : ℝ),
      ∃ out, K3_execute controller s demoRobotBad dt = .ok out) :=
  ⟨Or.inl (by norm_num [demoRobotBad]),
   C6_configuration_error_at_construction ⟨0, 0, 0⟩ demoRobotBad
     (Or.inl (by norm_num [demoRobotBad]))⟩

/-- C8: for every `v` and geometry with `R > 0`, the command `(v, 0)` yields
equal wheel speeds `vl = vr = v/R`. -/
theorem C8_straight_line_equal_speeds (robot : RobotInfo) (v : ℝ)
    (hR : 0 < robot.wheels.radius) :
    (uni2diff robot (v, 0)).1 = v / robot.wheels.radius ∧
    (uni2diff robot (v, 0)).2 = v / robot.wheels.radius := by
  have hR0 : robot.wheels.radius ≠ 0 := ne_of_gt hR
  constructor <;>
    · simp only [uni2diff]
      field_simp

/-- Witness for C8 at `demoRobot` with `v = 3`. -/
theorem C8_witness :
    0 < demoRobot.wheels.radius ∧
    ((uni2diff demoRobot (3, 0)).1 = 3 / demoRobot.wheels.radius ∧
     (uni2diff demoRobot (3, 0)).2 = 3 / demoRobot.wheels.radius) :=
  ⟨by norm_num [demoRobot],
   C8_straight_line_equal_speeds demoRobot 3 (by norm_num [demoRobot])⟩

/-- C9: `execute` replaces the stored tick registers with the new encoder
readings, stores the returned pose as the new estimate, and modifies no
other supervisor state (the parameters are untouched); the wheel command
returned is `uni2diff` of the controller's output on the new estimate. -/
theorem C9_execute_state_frame (controller : Controller) (s : K3State)
    (robot_info : RobotInfo) (dt : ℝ) :
    K3_execute controller s robot_info dt =
      .ok ({ left_ticks := robot_info.wheels.left_ticks
           , right_ticks := robot_info.wheels.right_ticks
           , pose_est := (estimate_pose s robot_info).2
           , ui_params := s.ui_params },
           uni2diff robot_info
             (controller (estimate_pose s robot_info).2 dt s.ui_params)) := by
  have hl : s.left_ticks + (robot_info.wheels.left_ticks - s.left_ticks) =
      robot_info.wheels.left_ticks := by ring
  have hr : s.right_ticks + (robot_info.wheels.right_ticks - s.right_ticks) =
      robot_info.wheels.right_ticks := by ring
  simp only [K3_execute, estimate_pose, hl, hr]

/-- C10: the wheel speeds produced by `uni2diff` recover the commanded
unicycle velocity under the differential-drive forward kinematics:
`(vr + vl)*R/2 = v` and `(vr - vl)*R/L = w`, for `R > 0`, `L > 0`. -/
theorem C10_uni2diff_inverts_forward_kinematics (robot : RobotInfo) (v w : ℝ)
    (hR : 0 < robot.wheels.radius) (hL : 0 < robot.wheels.base_length) :
    ((uni2diff robot (v, w)).2 + (uni2diff robot (v, w)).1) *
        robot.wheels.radius / 2 = v ∧
    ((uni2diff robot (v, w)).2 - (uni2diff robot (v, w)).1) *
        robot.wheels.radius / robot.wheels.base_length = w := by
  have hR0 : robot.wheels.radius ≠ 0 := ne_of_gt hR
  have hL0 : robot.wheels.base_length ≠ 0 := ne_of_gt hL
  constructor <;>
    · simp only [uni2diff]
      field_simp
      ring

/-- Witness for C10 at `demoRobot` with the command `(v, w) = (3, 2)`. -/
theorem C10_witness :
    (0 < demoRobot.wheels.radius ∧ 0 < demoRobot.wheels.base_length) ∧
    (((uni2diff demoRobot (3, 2)).2 + (uni2diff demoRobot (3, 2)).1) *
        demoRobot.wheels.radius / 2 = 3 ∧
    ((uni2diff demoRobot (3, 2)).2 - (uni2diff demoRobot (3, 2)).1) *
        demoRobot.wheels.radius / demoRobot.wheels.base_length = 2) :=
  ⟨⟨by norm_num [demoRobot], by norm_num [demoRobot]⟩,
   C10_uni2diff_inverts_forward_kinematics demoRobot 3 2
     (by norm_num [demoRobot]) (by norm_num [demoRobot])⟩

/- Key-preservation lemmas: `set_value` never changes the shape of the
ordered mapping, only the values stored at its keys. -/

theorem setChild_keys (ls : List (String × Entry)) (k : String) (v : PValue) :
    ((setChild ls k v).1).map Prod.fst = ls.map Prod.fst := by
  induction ls with
  | nil => simp [setChild]
  | cons hd tl ih =>
      obtain ⟨k0, e⟩ := hd
      by_cases h : k0 = k <;> simp [setChild, h, ih]

theorem setPairs_keys (items : List (String × PValue)) :
    ∀ ls, ((setPairs ls items).1).map Prod.fst = ls.map Prod.fst := by
  induction items with
  | nil => intro ls; simp [setPairs]
  | cons hd rest ih =>
      intro ls
      obtain ⟨k, v⟩ := hd
      by_cases h : containsKey ls k
      · simp only [setPairs, h, if_true]
        cases hm : (setChild ls k v).2 with
        | some msg => simp [hm, setChild_keys]
        | none => simp only [hm]; rw [ih]; exact setChild_keys ls k v
      · simp [setPairs, h]

theorem containsKey_keys (ls : List (String × Entry)) (k : String) :
    containsKey ls k = (ls.map Prod.fst).any (fun s => s == k) := by
  induction ls with
  | nil => simp [containsKey]
  | cons hd tl ih => simp [containsKey] at ih ⊢; rw [ih]

theorem getPairs_keys (ls : List (String × Entry)) :
    (getPairs ls).map Prod.fst = ls.map Prod.fst := by
  induction ls with
  | nil => simp [getPairs]
  | cons hd tl ih => obtain ⟨k, e⟩ := hd; simp [getPairs, ih]

/- Lemmas on how the `Group.set_value` loop walks an ordered mapping. -/

theorem containsKey_cons_of_ne (k : String) (e : Entry)
    (tl : List (String × Entry)) (k2 : String) (h : k ≠ k2) :
    containsKey ((k, e) :: tl) k2 = containsKey tl k2 := by
  simp [containsKey, h]

theorem setChild_cons_of_ne (k : String) (e : Entry)
    (tl : List (String × Entry)) (k2 : String) (v : PValue) (h : k ≠ k2) :
    setChild ((k, e) :: tl) k2 v =
      ((k, e) :: (setChild tl k2 v).1, (setChild tl k2 v).2) := by
  simp [setChild, h]

theorem setPairs_cons_of_not_mem (k : String) (e : Entry)
    (items : List (String × PValue)) :
    ∀ tl, (∀ p ∈ items, p.1 ≠ k) →
    setPairs ((k, e) :: tl) items =
      ((k, e) :: (setPairs tl items).1, (setPairs tl items).2) := by
  induction items with
  | nil => intro tl _; simp [setPairs]
  | cons hd rest ih =>
      intro tl hmem
      obtain ⟨k2, v⟩ := hd
      have hk2 : k ≠ k2 := fun hh => (hmem (k2, v) (by simp)) hh.symm
      by_cases h : containsKey tl k2
      · rw [setPairs, setPairs, containsKey_cons_of_ne k e tl k2 hk2]
        rw [if_pos h, if_pos h, setChild_cons_of_ne k e tl k2 v hk2]
        cases hm : (setChild tl k2 v).2 with
        | some msg => simp [hm]
        | none =>
            simp only [hm]
            exact ih _ (fun p hp => hmem p (by simp [hp]))
      · rw [setPairs, setPairs, containsKey_cons_of_ne k e tl k2 hk2]
        rw [if_neg h, if_neg h]

theorem min_max_of_between (mn mx v : ℚ) (h1 : mn ≤ v) (h2 : v ≤ mx) :
    max mn (min mx v) = v := by
  rw [min_eq_right h2, max_eq_right h1]

mutual

theorem setValue_getValue (e : Entry) (h : entryWF e = true) :
    setValue e (getValue e) = (e, none) := by
  match e with
  | .float mn mx v =>
      rw [entryWF] at h
      simp only [Bool.and_eq_true, decide_eq_true_eq] at h
      rw [getValue, setValue, min_max_of_between mn mx v h.1 h.2]
  | .group ls =>
      rw [entryWF] at h
      simp only [Bool.and_eq_true] at h
      rw [getValue, setValue, setPairs_getPairs ls h.2 h.1]
termination_by sizeOf e

theorem setPairs_getPairs (ls : List (String × Entry))
    (hwf : leafsWF ls = true) (hkeys : keysUnique (ls.map Prod.fst) = true) :
    setPairs ls (getPairs ls) = (ls, none) := by
  match ls with
  | [] => rw [getPairs, setPairs]
  | (k, e) :: tl =>
      rw [leafsWF, Bool.and_eq_true] at hwf
      rw [List.map_cons, keysUnique, Bool.and_eq_true] at hkeys
      simp only [Bool.not_eq_true', List.elem_eq_mem,
        decide_eq_false_iff_not] at hkeys
      rw [getPairs, setPairs]
      have hck : containsKey ((k, e) :: tl) k = true := by simp [containsKey]
      rw [if_pos hck]
      have hsc : setChild ((k, e) :: tl) k (getValue e) =
          ((k, e) :: tl, none) := by
        rw [setChild, if_pos rfl, setValue_getValue e hwf.1]
      rw [hsc]
      show setPairs ((k, e) :: tl) (getPairs tl) = ((k, e) :: tl, none)
      have hnm : ∀ p ∈ getPairs tl, p.1 ≠ k := by
        intro p hp
        have : p.1 ∈ (getPairs tl).map Prod.fst := List.mem_map_of_mem _ hp
        rw [getPairs_keys] at this
        intro hh
        exact hkeys.1 (hh ▸ this)
      rw [setPairs_cons_of_not_mem k e (getPairs tl) tl hnm,
        setPairs_getPairs tl hwf.2 hkeys.2]
termination_by sizeOf ls

end

/- Sequential composition of the `Group.set_value` loop: a succeeding
prefix of updates followed by further updates runs the suffix on the
already-mutated mapping. -/

theorem setPairs_cons_found (ls : List (String × Entry)) (k : String)
    (v : PValue) (rest : List (String × PValue)) (h : containsKey ls k = true) :
    setPairs ls ((k, v) :: rest) =
      match (setChild ls k v).2 with
      | some msg => ((setChild ls k v).1, some msg)
      | none => setPairs (setChild ls k v).1 rest := by
  rw [setPairs, if_pos h]

theorem setPairs_append (pre : List (String × PValue)) :
    ∀ ls items, (setPairs ls pre).2 = none →
    setPairs ls (pre ++ items) = setPairs (setPairs ls pre).1 items := by
  induction pre with
  | nil =>
      intro ls items _
      rw [List.nil_append, setPairs]
  | cons hd rest ih =>
      intro ls items hnone
      obtain ⟨k, v⟩ := hd
      rw [List.cons_append]
      by_cases h : containsKey ls k
      · rw [setPairs_cons_found ls k v rest h] at hnone
        rw [setPairs_cons_found ls k v (rest ++ items) h,
          setPairs_cons_found ls k v rest h]
        cases hm : (setChild ls k v).2 with
        | some msg =>
            rw [hm] at hnone
            exact Option.noConfusion hnone
        | none =>
            rw [hm] at hnone
            exact ih (setChild ls k v).1 items hnone
      · rw [setPairs, if_neg h] at hnone
        exact Option.noConfusion hnone

/-- C3 counterexample: on the two-leaf group `demoGains`, the update
sequence `demoUpdates` — a valid assignment to `kp` followed by an unknown
key — raises an error, yet the tree after the call differs from the tree
before it: the `kp` leaf keeps the new value 5.  This refutes the claimed
all-or-nothing atomicity of the bulk set. -/
theorem C3_counterexample :
    (setValue (.group demoGains) (.pairs demoUpdates)).2.isSome = true ∧
    (setValue (.group demoGains) (.pairs demoUpdates)).1 ≠ .group demoGains := by
  have h : setValue (.group demoGains) (.pairs demoUpdates) =
      (.group [("kp", .float 0 10 5), ("ki", .float 0 10 2)],
       some ("Key \x27missing\x27 not accepted by supervisor")) := by
    simp [demoGains, demoUpdates, setValue.eq_def, setPairs.eq_def,
      setChild.eq_def, containsKey]
    norm_num
  rw [h]
  refine ⟨rfl, ?_⟩
  intro hc
  norm_num [demoGains] at hc

/-- C3 (amended): if an update sequence consists of a succeeding prefix
followed by an entry whose path is unknown, the bulk set raises a
`KeyError` naming the offending key, and the tree is left in the state
produced by the prefix — the updates preceding the invalid entry remain
applied, so the operation is not atomic. -/
theorem C3_bulk_set_partial_mutation (ls : List (String × Entry))
    (pre : List (String × PValue)) (k : String) (v : PValue)
    (post : List (String × PValue))
    (hpre : (setPairs ls pre).2 = none)
    (hk : containsKey ls k = false) :
    setValue (.group ls) (.pairs (pre ++ (k, v) :: post)) =
      (.group (setPairs ls pre).1,
       some ("Key \x27" ++ k ++ "\x27 not accepted by supervisor")) := by
  rw [setValue]
  show (Entry.group (setPairs ls (pre ++ (k, v) :: post)).1,
        (setPairs ls (pre ++ (k, v) :: post)).2) = _
  rw [setPairs_append pre ls ((k, v) :: post) hpre]
  have hk2 : containsKey (setPairs ls pre).1 k = false := by
    rw [containsKey_keys, setPairs_keys pre ls, ← containsKey_keys]
    exact hk
  rw [setPairs, if_neg (by simp [hk2])]

/-- Witness for C3 (amended) on `demoGains` with a valid `kp` update
followed by the unknown key `missing`. -/
theorem C3_witness :
    ((setPairs demoGains [("kp", .num 5)]).2 = none ∧
      containsKey demoGains "missing" = false) ∧
    setValue (.group demoGains)
        (.pairs ([("kp", .num 5)] ++ ("missing", .num 1) :: [])) =
      (.group (setPairs demoGains [("kp", .num 5)]).1,
       some ("Key \x27missing\x27 not accepted by supervisor")) :=
  ⟨⟨by simp [demoGains, setPairs.eq_def, setChild.eq_def, setValue.eq_def, containsKey],
    by decide⟩,
   C3_bulk_set_partial_mutation demoGains [("kp", .num 5)] "missing" (.num 1) []
     (by simp [demoGains, setPairs.eq_def, setChild.eq_def, setValue.eq_def, containsKey])
     (by decide)⟩

/-- C4 counterexample: on a numeric leaf bounded `[0, 10]`, a bulk set
assigning 15 does not fail — no error is raised — and the stored value
becomes 10: the out-of-range value is clamped by the spinbox, not
rejected with a `ValidationError`. -/
theorem C4_counterexample :
    (setValue (.group [("v", .float 0 10 5)]) (.pairs [("v", .num 15)])).2 = none ∧
    (setValue (.group [("v", .float 0 10 5)]) (.pairs [("v", .num 15)])).1 =
      .group [("v", .float 0 10 10)] := by
  constructor <;>
    · simp [setValue.eq_def, setPairs.eq_def, setChild.eq_def, containsKey]
      try norm_num

/-- C4 (amended): for a numeric leaf with declared bounds `[0, 10]`, a bulk
set assigning 15 succeeds with the value clamped to the inclusive upper
bound 10, and a bulk set assigning 10 succeeds storing 10. -/
theorem C4_out_of_range_clamped (v0 : ℚ) :
    setValue (.group [("v", .float 0 10 v0)]) (.pairs [("v", .num 15)]) =
      (.group [("v", .float 0 10 10)], none) ∧
    setValue (.group [("v", .float 0 10 v0)]) (.pairs [("v", .num 10)]) =
      (.group [("v", .float 0 10 10)], none) := by
  constructor <;>
    · simp [setValue.eq_def, setPairs.eq_def, setChild.eq_def, containsKey]
      try norm_num

/-- C7: for every parameter tree in a valid state, setting it to the
record returned by `get_value` succeeds (no exception) and is a no-op —
the tree, and hence any snapshot taken afterwards, is identical to the one
before the call. -/
theorem C7_set_get_roundtrip (e : Entry) (h : entryWF e = true) :
    setValue e (getValue e) = (e, none) :=
  setValue_getValue e h

/-- Witness for C7 on the khepera3 default parameter tree. -/
theorem C7_witness :
    entryWF demoTree = true ∧
    setValue demoTree (getValue demoTree) = (demoTree, none) :=
  ⟨by simp [demoTree, entryWF.eq_def, leafsWF.eq_def, keysUnique]; norm_num,
   C7_set_get_roundtrip demoTree
     (by simp [demoTree, entryWF.eq_def, leafsWF.eq_def, keysUnique]; norm_num)⟩

end PySimiam
